import Mathlib

/-!
Verification of the crawlmagnet SEO analyzer (src/main.py) against its
natural-language specification.

The Python source is shallowly embedded below:

* `parse_robots_txt` (main.py lines 39-94) over real `String`s, with the
  dict `data['user_agents']` modelled as an insertion-ordered association
  list (Python dicts preserve insertion order and have unique keys).
* `parse_sitemap` (lines 106-165): the byte input is abstracted by `RawDoc`,
  which records how the two XML parsers see the bytes: `ET.fromstring`
  either succeeds with an element tree (`wellFormed`) or raises
  `ET.ParseError` (`malformed`), in which case BeautifulSoup either yields
  a soup forest or raises (`none`).  Empty bytes are `RawDoc.empty`
  (falsy in Python).
* `get_all_sitemap_urls` (lines 167-180) and `analyze_seo` (lines 182-242),
  with the network capability `requests.get`/`fetch_sitemap` injected as a
  function `fetch : String → Option RawDoc` (`none` models a non-200
  response, timeout or transport error).  Python exceptions escaping
  `analyze_seo` (the unguarded `float(...)` calls) are modelled with
  `Except String`.
* Insight / warning / recommendation strings are modelled by the tagged
  type `Msg`, one constructor per f-string in the source; numeric payloads
  are exact rationals (the source formats IEEE floats with two decimals for
  display, which is presentation only; at that precision exact rational
  arithmetic and IEEE arithmetic agree on the inputs of interest).
-/

/-! Python string primitives, modelled on character lists so that all
definitions reduce in the kernel.  The inputs of interest are ASCII, so
`strip`/`lower` are modelled on the ASCII fragment of their Unicode
behaviour. -/

/-- Characters removed by Python `str.strip()` (ASCII whitespace). -/
def isSpaceChar (c : Char) : Bool :=
  c = ' ' ∨ c = '\t' ∨ c = '\n' ∨ c = '\r' ∨ c = '\x0b' ∨ c = '\x0c'

/-- Python `str.strip()`. -/
def pyStrip (s : String) : String :=
  ⟨((s.data.dropWhile isSpaceChar).reverse.dropWhile isSpaceChar).reverse⟩

/-- Lower-case one character (ASCII fragment of Python `str.lower()`). -/
def lowerChar (c : Char) : Char :=
  if 'A' ≤ c ∧ c ≤ 'Z' then Char.ofNat (c.toNat + 32) else c

/-- Python `str.lower()`. -/
def pyLower (s : String) : String :=
  ⟨s.data.map lowerChar⟩

/-- Python `str.startswith(p)`. -/
def pyStartsWith (s p : String) : Bool :=
  p.data.isPrefixOf s.data

/-- Python slicing `s[n:]` (both count code points). -/
def pyDrop (s : String) (n : Nat) : String :=
  ⟨s.data.drop n⟩

/-- Split a character list at every occurrence of `c`; on the empty list
the result is `[[]]`, matching Python where splitting an empty string
yields a list holding one empty string. -/
def splitOnChar (c : Char) : List Char → List (List Char)
  | [] => [[]]
  | a :: r =>
      match splitOnChar c r with
      | [] => if a = c then [[], []] else [[a]]
      | h :: t => if a = c then [] :: h :: t else (a :: h) :: t

/-- Python `content.split('\n')`. -/
def pySplitNL (s : String) : List String :=
  (splitOnChar '\n' s.data).map (fun l => ⟨l⟩)

/-- Python truthiness of an optional string field: `None` and `""` are
falsy, everything else truthy (used for `if url['priority']` etc.). -/
def pyTruthyOpt (o : Option String) : Bool :=
  match o with
  | none => false
  | some s => !(s.data.isEmpty)

/-- Python substring containment `needle in hay` on strings. -/
def strIn (needle hay : String) : Bool :=
  hay.data.tails.any (fun t => needle.data.isPrefixOf t)

/-- Per-agent rule lists, the value type of `data['user_agents']`
(main.py line 67). -/
structure AgentRules where
  disallow : List String
  allow : List String
deriving DecidableEq, Repr

/-- The result dict of `parse_robots_txt` (main.py lines 43-50).
`user_agents` is an insertion-ordered association list with unique keys,
modelling the Python dict. -/
structure RobotsData where
  user_agents : List (String × AgentRules)
  sitemaps : List String
  disallowed : List String
  allowed : List String
  crawl_delay : Option String
  comments : List String
deriving DecidableEq, Repr

/-- Loop state of `parse_robots_txt`: the accumulating dict plus the
`current_ua` variable (main.py line 52). -/
structure RState where
  data : RobotsData
  current_ua : String
deriving DecidableEq, Repr

/-- Python `key in dict` for the agent map. -/
def alistContains (m : List (String × AgentRules)) (k : String) : Bool :=
  m.any (fun p => p.1 = k)

/-- `if current_ua not in data['user_agents']: data['user_agents'][current_ua] = ...`
(main.py lines 66-67): add the key with empty lists only if absent. -/
def alistAddAgent (m : List (String × AgentRules)) (k : String) :
    List (String × AgentRules) :=
  if alistContains m k then m else m ++ [(k, ⟨[], []⟩)]

/-- `data['user_agents'][current_ua]['disallow'].append(path)` (line 73). -/
def alistAppendDis (m : List (String × AgentRules)) (k p : String) :
    List (String × AgentRules) :=
  m.map (fun q => if q.1 = k then (q.1, ⟨q.2.disallow ++ [p], q.2.allow⟩) else q)

/-- `data['user_agents'][current_ua]['allow'].append(path)` (line 80). -/
def alistAppendAllow (m : List (String × AgentRules)) (k p : String) :
    List (String × AgentRules) :=
  m.map (fun q => if q.1 = k then (q.1, ⟨q.2.disallow, q.2.allow ++ [p]⟩) else q)

/-- The body of the `for line in content.split('\n')` loop of
`parse_robots_txt` (main.py lines 54-92), applied to the already stripped
line (`line = line.strip()`).  The branch order, slice offsets and guards
mirror the source exactly. -/
def robotsStepLine (st : RState) (line : String) : RState :=
  if line = "" then st
  else if pyStartsWith line "#" then
    { st with data := { st.data with
        comments := st.data.comments ++ [pyStrip (pyDrop line 1)] } }
  else if pyStartsWith (pyLower line) "user-agent:" then
    let ua := pyStrip (pyDrop line 11)
    { data := { st.data with user_agents := alistAddAgent st.data.user_agents ua },
      current_ua := ua }
  else if pyStartsWith (pyLower line) "disallow:" then
    let path := pyStrip (pyDrop line 9)
    if path ≠ "" ∧ alistContains st.data.user_agents st.current_ua then
      { st with data := { st.data with
          user_agents := alistAppendDis st.data.user_agents st.current_ua path,
          disallowed := st.data.disallowed ++ [path] } }
    else st
  else if pyStartsWith (pyLower line) "allow:" then
    let path := pyStrip (pyDrop line 6)
    if path ≠ "" ∧ alistContains st.data.user_agents st.current_ua then
      { st with data := { st.data with
          user_agents := alistAppendAllow st.data.user_agents st.current_ua path,
          allowed := st.data.allowed ++ [path] } }
    else st
  else if pyStartsWith (pyLower line) "sitemap:" then
    { st with data := { st.data with
        sitemaps := st.data.sitemaps ++ [pyStrip (pyDrop line 8)] } }
  else if pyStartsWith (pyLower line) "crawl-delay:" then
    { st with data := { st.data with crawl_delay := some (pyStrip (pyDrop line 12)) } }
  else st

/-- One loop iteration: Python first reassigns the line to its stripped
form (main.py line 55). -/
def robotsStep (st : RState) (rawLine : String) : RState :=
  robotsStepLine st (pyStrip rawLine)

/-- Initial state: empty result dict, `current_ua = '*'` (lines 43-52). -/
def robotsInit : RState :=
  ⟨⟨[], [], [], [], none, []⟩, "*"⟩

/-- `parse_robots_txt` (main.py lines 39-94).  `if not content: return None`
is the emptiness test for a string argument; `content.split('\n')` is
`String.splitOn "\n"`. -/
def parse_robots_txt (content : String) : Option RobotsData :=
  if content = "" then none
  else some (((pySplitNL content).foldl robotsStep robotsInit).data)

example : parse_robots_txt "Disallow: /x" = some ⟨[], [], [], [], none, []⟩ := by decide

example : parse_robots_txt "User-agent: *\nDisallow: /a" =
    some ⟨[("*", ⟨["/a"], []⟩)], [], ["/a"], [], none, []⟩ := by decide

/-! ### SitemapParser (main.py lines 96-165) -/

/-- One element of the `xml.etree.ElementTree` tree produced by a
successful `ET.fromstring`.  `tag` is the fully qualified tag as ET stores
it (namespaced tags carry the URI in braces); `text` is the optional text
before the first child. -/
inductive ETElem where
  | mk (tag : String) (text : Option String) (children : List ETElem)

def ETElem.tag : ETElem → String
  | .mk t _ _ => t

def ETElem.text : ETElem → Option String
  | .mk _ tx _ => tx

def ETElem.children : ETElem → List ETElem
  | .mk _ _ c => c

/-- The sitemap schema URI bound to prefix `ns` (main.py line 144). -/
def SM_NS : String := "http://www.sitemaps.org/schemas/sitemap/0.9"

/-- Qualified tag in ET notation: the namespace URI in braces before the
local tag. -/
def qualify (t : String) : String := "\x7b" ++ SM_NS ++ "\x7d" ++ t

/-- `elem.findall(path, namespace)` for a single-step path such as
`ns:url`: the direct children whose qualified tag matches. -/
def etFindallChild (e : ETElem) (tag : String) : List ETElem :=
  e.children.filter (fun c => c.tag = tag)

/-- `elem.find(path, namespace)`: first matching direct child or `None`. -/
def etFindChild (e : ETElem) (tag : String) : Option ETElem :=
  (etFindallChild e tag).head?

/-! One node of the tree BeautifulSoup builds carries tag name,
concatenated text content and element children; the sibling list
`SoupForest` is a mutual inductive so that recursion over the tree is
structural. -/
mutual
inductive SoupNode where
  | mk (tag : String) (text : String) (children : SoupForest)
inductive SoupForest where
  | nil
  | cons (head : SoupNode) (tail : SoupForest)
end

def SoupNode.tag : SoupNode → String
  | .mk t _ _ => t

def SoupNode.text : SoupNode → String
  | .mk _ tx _ => tx

def SoupNode.children : SoupNode → SoupForest
  | .mk _ _ c => c

def SoupForest.isNil : SoupForest → Bool
  | .nil => true
  | .cons _ _ => false

/-- `soup.find_all(tag)` over a forest, in document (pre-)order. -/
def soupFindAll : SoupForest → String → List SoupNode
  | .nil, _ => []
  | .cons (.mk t tx ch) rest, tag =>
      (if t = tag then [SoupNode.mk t tx ch] else [])
        ++ soupFindAll ch tag ++ soupFindAll rest tag

/-- Truthiness of a BeautifulSoup tag: a tag is falsy exactly when it has
no contents (no text and no children). -/
def soupTruthy (n : SoupNode) : Bool :=
  !(n.text.data.isEmpty) || !(n.children.isNil)

/-- `soup.find(tag)` used as a condition (`if soup.find(tag):`): the first
match must exist and be truthy. -/
def soupFindTruthy (forest : SoupForest) (tag : String) : Bool :=
  match (soupFindAll forest tag).head? with
  | some n => soupTruthy n
  | none => false

/-- Field extraction on the BeautifulSoup path (main.py lines 127-130):
the found tag is used as a condition, so an empty tag yields `None`;
otherwise its text is taken. -/
def soupField (forest : SoupForest) (tag : String) : Option String :=
  match (soupFindAll forest tag).head? with
  | some n => if soupTruthy n then some n.text else none
  | none => none

/-- One record of a regular sitemap, the dict built at main.py
lines 126-131 / 148-153. -/
structure UrlEntry where
  loc : Option String
  lastmod : Option String
  changefreq : Option String
  priority : Option String
deriving DecidableEq, Repr

/-- `parse_sitemap` result: the dict tagged `'regular'` or `'index'`. -/
inductive SitemapDoc where
  | regular (urls : List UrlEntry) (source : String)
  | index (sitemaps : List String) (source : String)
deriving DecidableEq, Repr

/-- How the two XML parsers see one byte string:
`empty` - falsy content (empty bytes);
`wellFormed root` - `ET.fromstring` succeeds with tree `root`;
`malformed view` - `ET.fromstring` raises `ParseError`, and
BeautifulSoup yields the forest `view` of top level elements (or raises,
`none`).
Every byte string determines exactly one `RawDoc`. -/
inductive RawDoc where
  | empty
  | wellFormed (root : ETElem)
  | malformed (view : Option SoupForest)

/-- Python truthiness of fetched bytes (`if content:`). -/
def rawTruthy (c : RawDoc) : Bool :=
  match c with
  | .empty => false
  | _ => true

/-- `original_url or 'Direct'` (main.py lines 121/136/160). -/
def pySourceLabel (original_url : Option String) : String :=
  match original_url with
  | some s => if s = "" then "Direct" else s
  | none => "Direct"

/-- Entry extraction on the strict ET path (main.py lines 148-153): each
field is the text of the matching namespaced child when that child exists
(tested with an explicit not-None check), else `None`. -/
def etExtract (url : ETElem) : UrlEntry :=
  { loc := (etFindChild url (qualify "loc")).bind ETElem.text,
    lastmod := (etFindChild url (qualify "lastmod")).bind ETElem.text,
    changefreq := (etFindChild url (qualify "changefreq")).bind ETElem.text,
    priority := (etFindChild url (qualify "priority")).bind ETElem.text }

/-- Entry extraction on the BeautifulSoup path (main.py lines 126-131):
the search is recursive below the `url` tag and uses tag truthiness. -/
def soupExtract (url : SoupNode) : UrlEntry :=
  { loc := soupField url.children "loc",
    lastmod := soupField url.children "lastmod",
    changefreq := soupField url.children "changefreq",
    priority := soupField url.children "priority" }

/-- `parse_sitemap` (main.py lines 106-165).  Control flow of the source:
falsy content returns `None`; if `ET.fromstring` raises, BeautifulSoup is
tried (a raising soup, or one in which neither a truthy `sitemapindex`
nor a truthy `urlset` is found, ends in `return None` - the latter through
the unbound-`root` NameError swallowed by the final bare `except`);
if `ET.fromstring` succeeds, only the strict namespaced extraction runs,
and a zero-entry result falls through to `return None`. -/
def parse_sitemap (content : RawDoc) (original_url : Option String) : Option SitemapDoc :=
  match content with
  | .empty => none
  | .malformed none => none
  | .malformed (some forest) =>
      if soupFindTruthy forest "sitemapindex" then
        some (.index ((soupFindAll forest "loc").map SoupNode.text) (pySourceLabel original_url))
      else if soupFindTruthy forest "urlset" then
        some (.regular ((soupFindAll forest "url").map soupExtract) (pySourceLabel original_url))
      else none
  | .wellFormed root =>
      let urls := (etFindallChild root (qualify "url")).map etExtract
      if urls.isEmpty then none
      else some (.regular urls (pySourceLabel original_url))

/-! ### SitemapResolver (main.py lines 167-180) -/

/-- Loop body of `get_all_sitemap_urls` (main.py lines 173-178): fetch the
child, and when the content is truthy and parses to a regular sitemap,
extend the accumulator with its entries; otherwise leave it unchanged. -/
def resolveStep (fetch : String → Option RawDoc) (all_urls : List UrlEntry)
    (sitemap_url : String) : List UrlEntry :=
  match fetch sitemap_url with
  | some content =>
      if rawTruthy content then
        match parse_sitemap content (some sitemap_url) with
        | some (.regular urls _) => all_urls ++ urls
        | _ => all_urls
      else all_urls
  | none => all_urls

/-- `get_all_sitemap_urls` (main.py lines 167-180), with the network call
`fetch_sitemap` injected as `fetch` (`none` models a failed fetch). -/
def get_all_sitemap_urls (fetch : String → Option RawDoc)
    (sitemap_data : SitemapDoc) : List UrlEntry :=
  match sitemap_data with
  | .regular urls _ => urls
  | .index sitemaps _ => sitemaps.foldl (resolveStep fetch) []

/-- Entries one child URL contributes to the aggregate (zero unless it
fetches truthily and parses to a regular sitemap). -/
def childEntries (fetch : String → Option RawDoc) (u : String) : List UrlEntry :=
  match fetch u with
  | some content =>
      if rawTruthy content then
        match parse_sitemap content (some u) with
        | some (.regular urls _) => urls
        | _ => []
      else []
  | none => []

/-! ### SeoAnalyzer (main.py lines 182-242) -/

/-- Digit-string value. -/
def digitsToNat (l : List Char) : Nat :=
  l.foldl (fun a c => a * 10 + (c.toNat - 48)) 0

/-- Exact rational number in lowest terms (positive denominator), used for
the numeric values the analyzer computes.  All operations normalize, so
structural equality is value equality. -/
structure PyNum where
  num : Int
  den : Nat
deriving DecidableEq, Repr

/-- Normalizing constructor. -/
def pynum (n : Int) (d : Nat) : PyNum :=
  let g := n.natAbs.gcd d
  if g = 0 then ⟨0, 1⟩ else ⟨n / (g : Int), d / g⟩

def PyNum.add (a b : PyNum) : PyNum :=
  pynum (a.num * (b.den : Int) + b.num * (a.den : Int)) (a.den * b.den)

def PyNum.mul (a b : PyNum) : PyNum :=
  pynum (a.num * b.num) (a.den * b.den)

def PyNum.div (a b : PyNum) : PyNum :=
  let n := a.num * (b.den : Int)
  let d := (a.den : Int) * b.num
  if d < 0 then pynum (-n) (-d).toNat else pynum n d.toNat

/-- Ten to a natural power, as a `PyNum`. -/
def pyTen (k : Nat) : PyNum := ⟨(10 : Int) ^ k, 1⟩

/-- Python `sum(l)` (starts from 0). -/
def pySum (l : List PyNum) : PyNum :=
  l.foldl PyNum.add ⟨0, 1⟩

/-- Arithmetic mean `sum(l) / len(l)` of a priority list. -/
def pyMean (l : List PyNum) : PyNum :=
  (pySum l).div ⟨(l.length : Int), 1⟩

/-- Python `float(s)` on the decimal / scientific literal fragment,
returning the exact rational value (`none` models `ValueError`).
The special spellings inf / nan and underscore separators are not
modelled; for sitemap priorities only finite decimals occur. -/
def pyFloat? (s : String) : Option PyNum :=
  let cs := (pyStrip s).data
  let sr : PyNum × List Char :=
    match cs with
    | '+' :: r => (⟨1, 1⟩, r)
    | '-' :: r => (⟨-1, 1⟩, r)
    | r => (⟨1, 1⟩, r)
  let ip := sr.2.takeWhile Char.isDigit
  let r1 := sr.2.dropWhile Char.isDigit
  let fr : List Char × List Char :=
    match r1 with
    | '.' :: r => (r.takeWhile Char.isDigit, r.dropWhile Char.isDigit)
    | r => ([], r)
  if ip.isEmpty ∧ fr.1.isEmpty then none
  else
    let mant : PyNum :=
      PyNum.add ⟨(digitsToNat ip : Int), 1⟩ (PyNum.div ⟨(digitsToNat fr.1 : Int), 1⟩ (pyTen fr.1.length))
    match fr.2 with
    | [] => some (sr.1.mul mant)
    | e :: r3 =>
        if e = 'e' ∨ e = 'E' then
          let er : Bool × List Char :=
            match r3 with
            | '+' :: r => (true, r)
            | '-' :: r => (false, r)
            | r => (true, r)
          let ed := er.2.takeWhile Char.isDigit
          let r5 := er.2.dropWhile Char.isDigit
          if ed.isEmpty ∨ ¬r5.isEmpty then none
          else if er.1 then some ((sr.1.mul mant).mul (pyTen (digitsToNat ed)))
          else some ((sr.1.mul mant).div (pyTen (digitsToNat ed)))
        else none

/-- One `float(...)` call: a failing parse raises `ValueError`. -/
def pyFloatExc (s : String) : Except String PyNum :=
  match pyFloat? s with
  | some q => Except.ok q
  | none => Except.error "ValueError"

/-- `[float(x) for x in l]`: the whole comprehension raises as soon as one
element fails. -/
def floatList : List String → Except String (List PyNum)
  | [] => Except.ok []
  | s :: t =>
      match pyFloat? s with
      | none => Except.error "ValueError"
      | some q =>
          match floatList t with
          | Except.ok qs => Except.ok (q :: qs)
          | Except.error e => Except.error e

/-- A proleptic Gregorian calendar date as `datetime.strptime` validates
it. -/
structure PyDate where
  year : Nat
  month : Nat
  day : Nat
deriving DecidableEq, Repr

def isLeap (y : Nat) : Bool :=
  (y % 4 = 0 ∧ y % 100 ≠ 0) ∨ y % 400 = 0

def daysInMonth (y m : Nat) : Nat :=
  if m = 2 then (if isLeap y then 29 else 28)
  else if m = 4 ∨ m = 6 ∨ m = 9 ∨ m = 11 then 30
  else 31

/-- The day field of the `%d` directive, following the CPython pattern:
one or two digits, or a space followed by a nonzero digit (space-padded
day). -/
def dayFieldOk (ds : String) : Bool :=
  (ds.data.all Char.isDigit && !ds.data.isEmpty && decide (ds.data.length ≤ 2)) ||
  (match ds.data with
   | [' ', c] => c.isDigit && decide (c ≠ '0')
   | _ => false)

/-- Numeric value of a day field (ignores the optional leading space). -/
def dayFieldVal (ds : String) : Nat :=
  digitsToNat (ds.data.filter Char.isDigit)

/-- `datetime.strptime(s, %Y-%m-%d fmt)` (main.py line 214), following the
patterns CPython compiles for the three directives: the year is exactly
four digits, the month one or two digits valued 1-12, the day one or two
digits (or a space-padded single digit) valued within the month, and the
whole string must be consumed; `datetime` additionally requires year at
least 1 and a valid calendar day.  Anything else raises, modelled as
`none`. -/
def parseDate (s : String) : Option PyDate :=
  match (splitOnChar '-' s.data).map (fun l => (⟨l⟩ : String)) with
  | [ys, ms, ds] =>
      if ys.data.all Char.isDigit ∧ ys.data.length = 4 ∧
         ms.data ≠ [] ∧ ms.data.all Char.isDigit ∧ ms.data.length ≤ 2 ∧
         dayFieldOk ds then
        let y := digitsToNat ys.data
        let m := digitsToNat ms.data
        let d := dayFieldVal ds
        if 1 ≤ y ∧ 1 ≤ m ∧ m ≤ 12 ∧ 1 ≤ d ∧ d ≤ daysInMonth y m then
          some ⟨y, m, d⟩
        else none
      else none
  | _ => none

/-- `[datetime.strptime(d, fmt) for d in l]` (main.py line 214): the
whole comprehension fails as soon as one element fails. -/
def parseDates : List String → Option (List PyDate)
  | [] => some []
  | s :: t =>
      match parseDate s with
      | none => none
      | some d =>
          match parseDates t with
          | some ds => some (d :: ds)
          | none => none

/-- Chronological order on dates. -/
def dateLE (a b : PyDate) : Bool :=
  a.year < b.year ∨ (a.year = b.year ∧
    (a.month < b.month ∨ (a.month = b.month ∧ a.day ≤ b.day)))

/-- Python `min` over a nonempty date list (head plus rest). -/
def dateListMin (d : PyDate) (l : List PyDate) : PyDate :=
  l.foldl (fun a b => if dateLE a b then a else b) d

/-- Python `max` over a nonempty date list (head plus rest). -/
def dateListMax (d : PyDate) (l : List PyDate) : PyDate :=
  l.foldl (fun a b => if dateLE b a then a else b) d

/-- Decimal digits of a natural number (fuel-based so it reduces in the
kernel). -/
def natDigitsAux : Nat → Nat → List Char
  | 0, _ => []
  | fuel + 1, n =>
      if n < 10 then [Char.ofNat (48 + n)]
      else natDigitsAux fuel (n / 10) ++ [Char.ofNat (48 + n % 10)]

/-- Zero-padded decimal rendering, as `strftime` pads `%Y`/`%m`/`%d`. -/
def natPad (n w : Nat) : String :=
  let ds := natDigitsAux (n + 1) n
  ⟨List.replicate (w - ds.length) '0' ++ ds⟩

/-- `date.strftime` with the `%Y-%m-%d` format (main.py lines 215-216). -/
def formatDate (d : PyDate) : String :=
  natPad d.year 4 ++ "-" ++ natPad d.month 2 ++ "-" ++ natPad d.day 2

/-- Stable insertion of a counted value into a count-descending list. -/
def insertByCount (x : String × Nat) : List (String × Nat) → List (String × Nat)
  | [] => [x]
  | y :: ys => if y.2 < x.2 then x :: y :: ys else y :: insertByCount x ys

/-- `pd.Series(l).value_counts()` (main.py line 223): occurrence counts of
the distinct values, sorted by descending count; ties keep first-seen
order (pandas leaves tie order unspecified; this is the stable choice). -/
def valueCounts (l : List String) : List (String × Nat) :=
  let distinct := l.foldl (fun acc s => if acc.contains s then acc else acc ++ [s]) []
  (distinct.map (fun s => (s, l.count s))).foldr insertByCount []

instance {e a : Type} [DecidableEq e] [DecidableEq a] : DecidableEq (Except e a) := fun x y =>
  match x, y with
  | .ok v, .ok w =>
      if h : v = w then .isTrue (h ▸ rfl) else .isFalse (fun hh => h (Except.ok.inj hh))
  | .error v, .error w =>
      if h : v = w then .isTrue (h ▸ rfl) else .isFalse (fun hh => h (Except.error.inj hh))
  | .ok _, .error _ => .isFalse (fun hh => Except.noConfusion hh)
  | .error _, .ok _ => .isFalse (fun hh => Except.noConfusion hh)

/-- One constructor per output string of `analyze_seo`; numeric payloads
are kept as exact values instead of the formatted text. -/
inductive Msg where
  | blockWarning (path : String)
  | addSitemapRec
  | sitemapCount (n : Nat)
  | crawlDelay (v : String)
  | urlCount (n : Nat)
  | avgPriority (q : PyNum)
  | lastmodRange (oldest newest : String)
  | changefreqHeader
  | changefreqItem (freq : String) (count : Nat)
  | indexCount (n : Nat)
  | totalUrls (n : Nat)
  | avgPriorityCombined (q : PyNum)
deriving DecidableEq, Repr

/-- Asset path substrings checked at main.py line 188. -/
def important_paths : List String := ["/css/", "/js/", "/img/", "/assets/"]

/-- The `if robots_data:` block of `analyze_seo` (main.py lines 187-199):
recommendations, warnings and insights contributed by the directive set. -/
def robotsPart (rd : RobotsData) : List Msg × List Msg × List Msg :=
  let warns := important_paths.filterMap (fun p =>
    if rd.disallowed.any (fun dis => strIn p dis) then some (Msg.blockWarning p) else none)
  let recs := if rd.sitemaps.isEmpty then [Msg.addSitemapRec] else []
  let ins1 := if rd.sitemaps.isEmpty then [] else [Msg.sitemapCount rd.sitemaps.length]
  let ins2 :=
    match rd.crawl_delay with
    | some cd => if cd = "" then [] else [Msg.crawlDelay cd]
    | none => []
  (recs, warns, ins1 ++ ins2)

/-- Priority strings that survive the `if url['priority']` filter. -/
def truthyPriorities (urls : List UrlEntry) : List String :=
  urls.filterMap (fun u => if pyTruthyOpt u.priority then u.priority else none)

/-- Lastmod strings that survive the `if url['lastmod']` filter. -/
def truthyLastmods (urls : List UrlEntry) : List String :=
  urls.filterMap (fun u => if pyTruthyOpt u.lastmod then u.lastmod else none)

/-- Changefreq strings that survive the `if url['changefreq']` filter. -/
def truthyChangefreqs (urls : List UrlEntry) : List String :=
  urls.filterMap (fun u => if pyTruthyOpt u.changefreq then u.changefreq else none)

/-- The `'regular'` branch of `analyze_seo` (main.py lines 202-226).
`float` failures propagate as `Except.error`; the date block is wrapped in
`try/except pass`, so one unparsable date silently removes the whole range
insight (main.py lines 213-219). -/
def regularInsights (urls : List UrlEntry) : Except String (List Msg) :=
  match floatList (truthyPriorities urls) with
  | Except.error e => Except.error e
  | Except.ok priorities =>
      let ins0 := [Msg.urlCount urls.length]
      let ins1 :=
        if priorities.isEmpty then ins0
        else ins0 ++ [Msg.avgPriority (pyMean priorities)]
      let lastmod_dates := truthyLastmods urls
      let ins2 :=
        if lastmod_dates.isEmpty then ins1
        else
          match parseDates lastmod_dates with
          | some (d0 :: ds) =>
              ins1 ++ [Msg.lastmodRange (formatDate (dateListMin d0 ds))
                         (formatDate (dateListMax d0 ds))]
          | _ => ins1
      let changefreqs := truthyChangefreqs urls
      let ins3 :=
        if changefreqs.isEmpty then ins2
        else ins2 ++ [Msg.changefreqHeader]
               ++ (valueCounts changefreqs).map (fun fc => Msg.changefreqItem fc.1 fc.2)
      Except.ok ins3

/-- The `'index'` branch of `analyze_seo` (main.py lines 228-240): it
resolves all linked sitemaps through the network and aggregates. -/
def indexInsights (fetch : String → Option RawDoc) (sitemaps : List String)
    (src : String) : Except String (List Msg) :=
  let ins0 := [Msg.indexCount sitemaps.length]
  let all_urls := get_all_sitemap_urls fetch (.index sitemaps src)
  if all_urls.isEmpty then Except.ok ins0
  else
    match floatList (truthyPriorities all_urls) with
    | Except.error e => Except.error e
    | Except.ok priorities =>
        if priorities.isEmpty then Except.ok (ins0 ++ [Msg.totalUrls all_urls.length])
        else Except.ok (ins0 ++ [Msg.totalUrls all_urls.length,
          Msg.avgPriorityCombined (pyMean priorities)])

/-- `analyze_seo` (main.py lines 182-242).  The network capability used by
the index branch (through `get_all_sitemap_urls`) is the injected `fetch`;
an uncaught Python exception is `Except.error`. -/
def analyze_seo (fetch : String → Option RawDoc) (robots_data : Option RobotsData)
    (sitemap_data : Option SitemapDoc) :
    Except String (List Msg × List Msg × List Msg) :=
  let rpart :=
    match robots_data with
    | some rd => robotsPart rd
    | none => ([], [], [])
  match sitemap_data with
  | none => Except.ok rpart
  | some (.regular urls _) =>
      match regularInsights urls with
      | Except.ok ins => Except.ok (rpart.1, rpart.2.1, rpart.2.2 ++ ins)
      | Except.error e => Except.error e
  | some (.index sitemaps src) =>
      match indexInsights fetch sitemaps src with
      | Except.ok ins => Except.ok (rpart.1, rpart.2.1, rpart.2.2 ++ ins)
      | Except.error e => Except.error e

/-! ### Helper lemmas about the resolver -/

theorem resolveStep_eq_childEntries (fetch : String → Option RawDoc)
    (acc : List UrlEntry) (u : String) :
    resolveStep fetch acc u = acc ++ childEntries fetch u := by
  unfold resolveStep childEntries
  cases h : fetch u with
  | none => simp
  | some c =>
      cases hc : rawTruthy c with
      | false => simp [hc]
      | true =>
          simp only [hc, if_true]
          cases hp : parse_sitemap c (some u) with
          | none => simp
          | some d => cases d <;> simp

theorem foldl_resolveStep (fetch : String → Option RawDoc) (l : List String)
    (acc : List UrlEntry) :
    l.foldl (resolveStep fetch) acc = acc ++ l.flatMap (childEntries fetch) := by
  induction l generalizing acc with
  | nil => simp
  | cons a t ih =>
      simp only [List.foldl_cons, List.flatMap_cons, resolveStep_eq_childEntries, ih,
        List.append_assoc]

theorem get_all_index_flatMap (fetch : String → Option RawDoc)
    (children : List String) (src : String) :
    get_all_sitemap_urls fetch (.index children src) =
      children.flatMap (childEntries fetch) := by
  simp [get_all_sitemap_urls, foldl_resolveStep]

theorem flatMap_congr_mem {α β : Type} {l : List α} {f g : α → List β}
    (h : ∀ a ∈ l, f a = g a) : l.flatMap f = l.flatMap g := by
  induction l with
  | nil => rfl
  | cons a t ih =>
      simp only [List.flatMap_cons, h a (by simp)]
      rw [ih (fun a ha => h a (by simp [ha]))]

theorem length_flatMap_eq_sum {α β : Type} (l : List α) (f : α → List β) :
    (l.flatMap f).length = (l.map (fun a => (f a).length)).sum := by
  induction l with
  | nil => rfl
  | cons a t ih => simp [List.flatMap_cons, ih]

/-- A child URL that contributes nothing to the aggregate: its fetch
fails, or the fetched content is falsy, or the content does not parse, or
it parses as a sitemap index. -/
def deadChild (fetch : String → Option RawDoc) (u : String) : Prop :=
  fetch u = none ∨ ∃ c, fetch u = some c ∧ (rawTruthy c = false ∨
    parse_sitemap c (some u) = none ∨
    ∃ ss s2, parse_sitemap c (some u) = some (.index ss s2))

theorem childEntries_dead {fetch : String → Option RawDoc} {u : String}
    (h : deadChild fetch u) : childEntries fetch u = [] := by
  unfold childEntries
  rcases h with h | ⟨c, hc, h⟩
  · simp [h]
  · rcases h with h | h | ⟨ss, s2, h⟩ <;> simp [hc, h]

/-- C7: in `get_all_sitemap_urls`, a child of a sitemap index whose fetch
returns absent, whose bytes are falsy or unparseable, or which parses as a
(nested) sitemap index contributes nothing to the aggregate, and
resolution of the remaining children continues: the result equals the
resolution of the child list with that child removed. -/
theorem claim_C7_skip (fetch : String → Option RawDoc) (u : String)
    (h : deadChild fetch u) (l1 l2 : List String) (src : String) :
    get_all_sitemap_urls fetch (.index (l1 ++ u :: l2) src) =
      get_all_sitemap_urls fetch (.index (l1 ++ l2) src) := by
  rw [get_all_index_flatMap, get_all_index_flatMap]
  simp [childEntries_dead h]

/-- C7 witness: a three-child index whose middle child fails to fetch
resolves exactly as the two-child index of the live children; the live
children each contribute their entry. -/
theorem claim_C7_witness :
    get_all_sitemap_urls
      (fun v => if v = "x" then none
        else some (.wellFormed (.mk (qualify "urlset") none
          [.mk (qualify "url") none [.mk (qualify "loc") (some "http://e/1") []]])))
      (.index (["a"] ++ "x" :: ["b"]) "s") =
    get_all_sitemap_urls
      (fun v => if v = "x" then none
        else some (.wellFormed (.mk (qualify "urlset") none
          [.mk (qualify "url") none [.mk (qualify "loc") (some "http://e/1") []]])))
      (.index (["a"] ++ ["b"]) "s") :=
  claim_C7_skip _ "x" (Or.inl rfl) ["a"] ["b"] "s"

/-- C8: when every child of a sitemap index fetches truthy bytes that
parse as a regular sitemap with entries `ent u`, the resolver returns the
concatenation of the children's entry lists in child-list order (hence of
length the sum of the children's entry counts); and on a regular root it
returns the root's entries unchanged. -/
theorem claim_C8_aggregate (fetch : String → Option RawDoc)
    (children : List String) (src : String) (ent : String → List UrlEntry)
    (h : ∀ u ∈ children, ∃ c s2, fetch u = some c ∧ rawTruthy c = true ∧
      parse_sitemap c (some u) = some (.regular (ent u) s2)) :
    get_all_sitemap_urls fetch (.index children src) = children.flatMap ent ∧
    (get_all_sitemap_urls fetch (.index children src)).length =
      (children.map (fun u => (ent u).length)).sum ∧
    ∀ es s2, get_all_sitemap_urls fetch (.regular es s2) = es := by
  have he : ∀ u ∈ children, childEntries fetch u = ent u := by
    intro u hu
    obtain ⟨c, s2, hc, ht, hp⟩ := h u hu
    simp [childEntries, hc, ht, hp]
  have h1 : get_all_sitemap_urls fetch (.index children src) = children.flatMap ent := by
    rw [get_all_index_flatMap]
    exact flatMap_congr_mem he
  refine ⟨h1, ?_, fun es s2 => rfl⟩
  rw [h1, length_flatMap_eq_sum]

/-- C8 witness: a two-child index whose children hold two and one entries
resolves to the three entries in order, of length 2 + 1. -/
theorem claim_C8_witness :
    get_all_sitemap_urls
      (fun v => if v = "a"
        then some (.wellFormed (.mk (qualify "urlset") none
          [.mk (qualify "url") none [.mk (qualify "loc") (some "http://e/1") []],
           .mk (qualify "url") none [.mk (qualify "loc") (some "http://e/2") []]]))
        else some (.wellFormed (.mk (qualify "urlset") none
          [.mk (qualify "url") none [.mk (qualify "loc") (some "http://e/3") []]])))
      (.index ["a", "b"] "s") =
      ["a", "b"].flatMap (fun u => if u = "a"
        then [⟨some "http://e/1", none, none, none⟩, ⟨some "http://e/2", none, none, none⟩]
        else [⟨some "http://e/3", none, none, none⟩]) ∧
    (get_all_sitemap_urls
      (fun v => if v = "a"
        then some (.wellFormed (.mk (qualify "urlset") none
          [.mk (qualify "url") none [.mk (qualify "loc") (some "http://e/1") []],
           .mk (qualify "url") none [.mk (qualify "loc") (some "http://e/2") []]]))
        else some (.wellFormed (.mk (qualify "urlset") none
          [.mk (qualify "url") none [.mk (qualify "loc") (some "http://e/3") []]])))
      (.index ["a", "b"] "s")).length =
      (["a", "b"].map (fun u => ((fun w => if w = "a"
        then [(⟨some "http://e/1", none, none, none⟩ : UrlEntry),
              ⟨some "http://e/2", none, none, none⟩]
        else [⟨some "http://e/3", none, none, none⟩]) u).length)).sum ∧
    ∀ es s2, get_all_sitemap_urls
      (fun v => if v = "a"
        then some (.wellFormed (.mk (qualify "urlset") none
          [.mk (qualify "url") none [.mk (qualify "loc") (some "http://e/1") []],
           .mk (qualify "url") none [.mk (qualify "loc") (some "http://e/2") []]]))
        else some (.wellFormed (.mk (qualify "urlset") none
          [.mk (qualify "url") none [.mk (qualify "loc") (some "http://e/3") []]])))
      (.regular es s2) = es :=
  claim_C8_aggregate _ ["a", "b"] "s" _ (by
    intro u hu
    simp only [List.mem_cons, List.not_mem_nil, or_false] at hu
    rcases hu with rfl | rfl
    · exact ⟨_, "a", rfl, rfl, by decide⟩
    · exact ⟨_, "b", rfl, rfl, by decide⟩)

/-! ### Helper lemmas about the robots parser -/

theorem mem_alistAddAgent {m : List (String × AgentRules)} {k ua : String}
    {r : AgentRules} (hm : (ua, r) ∈ alistAddAgent m k) :
    (ua, r) ∈ m ∨ r = ⟨[], []⟩ := by
  unfold alistAddAgent at hm
  split at hm
  · exact Or.inl hm
  · rcases List.mem_append.mp hm with hm | hm
    · exact Or.inl hm
    · right
      simp only [List.mem_singleton, Prod.mk.injEq] at hm
      exact hm.2

theorem mem_alistAppendDis {m : List (String × AgentRules)} {k p ua : String}
    {r : AgentRules} (hm : (ua, r) ∈ alistAppendDis m k p) :
    ∃ r0, (ua, r0) ∈ m ∧ (r = r0 ∨ r = ⟨r0.disallow ++ [p], r0.allow⟩) := by
  unfold alistAppendDis at hm
  rw [List.mem_map] at hm
  obtain ⟨⟨q1, q2⟩, hq, heq⟩ := hm
  by_cases hqk : q1 = k
  · rw [if_pos hqk] at heq
    injection heq with h1 h2
    subst h1
    exact ⟨q2, hq, Or.inr h2.symm⟩
  · rw [if_neg hqk] at heq
    injection heq with h1 h2
    subst h1
    subst h2
    exact ⟨q2, hq, Or.inl rfl⟩

theorem mem_alistAppendAllow {m : List (String × AgentRules)} {k p ua : String}
    {r : AgentRules} (hm : (ua, r) ∈ alistAppendAllow m k p) :
    ∃ r0, (ua, r0) ∈ m ∧ (r = r0 ∨ r = ⟨r0.disallow, r0.allow ++ [p]⟩) := by
  unfold alistAppendAllow at hm
  rw [List.mem_map] at hm
  obtain ⟨⟨q1, q2⟩, hq, heq⟩ := hm
  by_cases hqk : q1 = k
  · rw [if_pos hqk] at heq
    injection heq with h1 h2
    subst h1
    exact ⟨q2, hq, Or.inr h2.symm⟩
  · rw [if_neg hqk] at heq
    injection heq with h1 h2
    subst h1
    subst h2
    exact ⟨q2, hq, Or.inl rfl⟩

/-- Invariant behind C9: every rule list recorded under an agent is an
order-preserving subsequence of the corresponding flattened list. -/
def RobotsInv (st : RState) : Prop :=
  ∀ ua rules, (ua, rules) ∈ st.data.user_agents →
    List.Sublist rules.disallow st.data.disallowed ∧
    List.Sublist rules.allow st.data.allowed

theorem robotsStepLine_inv {st : RState} (l : String) (h : RobotsInv st) :
    RobotsInv (robotsStepLine st l) := by
  unfold robotsStepLine
  split
  · exact h
  split
  · exact fun ua r hm => h ua r hm
  split
  · intro ua r hm
    rcases mem_alistAddAgent hm with hm | rfl
    · exact h ua r hm
    · exact ⟨List.nil_sublist _, List.nil_sublist _⟩
  split
  · dsimp only
    split
    · intro ua r hm
      obtain ⟨r0, hr0, hcase⟩ := mem_alistAppendDis hm
      have h0 := h ua r0 hr0
      rcases hcase with rfl | rfl
      · exact ⟨h0.1.trans (List.sublist_append_left _ _), h0.2⟩
      · exact ⟨List.Sublist.append h0.1 (List.Sublist.refl _), h0.2⟩
    · exact h
  split
  · dsimp only
    split
    · intro ua r hm
      obtain ⟨r0, hr0, hcase⟩ := mem_alistAppendAllow hm
      have h0 := h ua r0 hr0
      rcases hcase with rfl | rfl
      · exact ⟨h0.1, h0.2.trans (List.sublist_append_left _ _)⟩
      · exact ⟨h0.1, List.Sublist.append h0.2 (List.Sublist.refl _)⟩
    · exact h
  split
  · exact fun ua r hm => h ua r hm
  split
  · exact fun ua r hm => h ua r hm
  · exact h

theorem foldl_robotsStep_inv {lines : List String} {st : RState}
    (h : RobotsInv st) : RobotsInv (lines.foldl robotsStep st) := by
  induction lines generalizing st with
  | nil => exact h
  | cons a t ih => exact ih (robotsStepLine_inv _ h)

/-- C9: for every crawler-control text, every Disallow/Allow value
recorded under some agent in the parsed directive set also appears in the
corresponding flattened list, and in the same relative order: each agent's
list is an order-preserving subsequence of the flattened list. -/
theorem claim_C9_flatten (content : String) (d : RobotsData)
    (hp : parse_robots_txt content = some d) (ua : String) (rules : AgentRules)
    (hm : (ua, rules) ∈ d.user_agents) :
    List.Sublist rules.disallow d.disallowed ∧
      List.Sublist rules.allow d.allowed := by
  unfold parse_robots_txt at hp
  split at hp
  · exact absurd hp (by simp)
  · injection hp with hp
    subst hp
    exact foldl_robotsStep_inv (fun _ _ hm0 => absurd hm0 (List.not_mem_nil _)) ua rules hm

/-- C9 witness: in a text recording one disallow and one allow value under
agent `*`, both per-agent lists are subsequences of the flattened ones. -/
theorem claim_C9_witness :
    List.Sublist (AgentRules.disallow ⟨["/a"], ["/b"]⟩) ["/a"] ∧
      List.Sublist (AgentRules.allow ⟨["/a"], ["/b"]⟩) ["/b"] :=
  claim_C9_flatten "User-agent: *\nDisallow: /a\nAllow: /b"
    ⟨[("*", ⟨["/a"], ["/b"]⟩)], [], ["/a"], ["/b"], none, []⟩ (by decide)
    "*" ⟨["/a"], ["/b"]⟩ (by decide)

/-- C1 counterexample: in the text consisting of the single line
`Disallow: /x` the disallow value precedes every user-agent line, yet the
parse records it nowhere: the agent map has no `*` entry (nor any other)
and both the per-agent and the flattened lists are empty, refuting the
claim that the value is recorded under the default agent token. -/
theorem claim_C1_counterexample :
    parse_robots_txt "Disallow: /x" = some ⟨[], [], [], [], none, []⟩ := by decide

theorem robotsStep_empty {st : RState} {l : String}
    (hl : pyStartsWith (pyLower (pyStrip l)) "user-agent:" = false)
    (h1 : st.data.user_agents = []) (h2 : st.data.disallowed = [])
    (h3 : st.data.allowed = []) :
    (robotsStep st l).data.user_agents = [] ∧
      (robotsStep st l).data.disallowed = [] ∧
      (robotsStep st l).data.allowed = [] := by
  unfold robotsStep robotsStepLine
  split
  · exact ⟨h1, h2, h3⟩
  split
  · exact ⟨h1, h2, h3⟩
  split
  · rename_i hcond
    rw [hl] at hcond
    exact absurd hcond (by simp)
  split
  · dsimp only
    split
    · rename_i hcond
      rw [h1] at hcond
      simp [alistContains] at hcond
    · exact ⟨h1, h2, h3⟩
  split
  · dsimp only
    split
    · rename_i hcond
      rw [h1] at hcond
      simp [alistContains] at hcond
    · exact ⟨h1, h2, h3⟩
  split
  · exact ⟨h1, h2, h3⟩
  split
  · exact ⟨h1, h2, h3⟩
  · exact ⟨h1, h2, h3⟩

theorem foldl_robotsStep_empty {lines : List String} {st : RState}
    (hl : ∀ l ∈ lines, pyStartsWith (pyLower (pyStrip l)) "user-agent:" = false)
    (h1 : st.data.user_agents = []) (h2 : st.data.disallowed = [])
    (h3 : st.data.allowed = []) :
    (lines.foldl robotsStep st).data.user_agents = [] ∧
      (lines.foldl robotsStep st).data.disallowed = [] ∧
      (lines.foldl robotsStep st).data.allowed = [] := by
  induction lines generalizing st with
  | nil => exact ⟨h1, h2, h3⟩
  | cons a t ih =>
      obtain ⟨g1, g2, g3⟩ := robotsStep_empty (hl a (by simp)) h1 h2 h3
      exact ih (fun l hlm => hl l (by simp [hlm])) g1 g2 g3

/-- C1 amended: a disallow or allow value seen before any user-agent line
is silently dropped, not attributed to `*`: in a text with no user-agent
line at all, the parsed directive set has an empty agent map and empty
flattened disallow/allow lists. -/
theorem claim_C1_amended (content : String)
    (h : ∀ l ∈ pySplitNL content,
      pyStartsWith (pyLower (pyStrip l)) "user-agent:" = false)
    (d : RobotsData) (hp : parse_robots_txt content = some d) :
    d.user_agents = [] ∧ d.disallowed = [] ∧ d.allowed = [] := by
  unfold parse_robots_txt at hp
  split at hp
  · exact absurd hp (by simp)
  · injection hp with hp
    subst hp
    exact foldl_robotsStep_empty h rfl rfl rfl

/-- C1 witness: the single-line text `Disallow: /x` has no user-agent
line, and its parse drops the value from the agent map and both flattened
lists. -/
theorem claim_C1_witness :
    RobotsData.user_agents ⟨[], [], [], [], none, []⟩ = [] ∧
      RobotsData.disallowed ⟨[], [], [], [], none, []⟩ = [] ∧
      RobotsData.allowed ⟨[], [], [], [], none, []⟩ = [] :=
  claim_C1_amended "Disallow: /x" (by decide) ⟨[], [], [], [], none, []⟩ (by decide)

theorem robotsStepLine_sitemaps_mono (st : RState) (l : String) :
    ∃ t, (robotsStepLine st l).data.sitemaps = st.data.sitemaps ++ t := by
  unfold robotsStepLine
  split
  · exact ⟨[], by simp⟩
  split
  · exact ⟨[], by simp⟩
  split
  · exact ⟨[], by simp⟩
  split
  · dsimp only
    split
    · exact ⟨[], by simp⟩
    · exact ⟨[], by simp⟩
  split
  · dsimp only
    split
    · exact ⟨[], by simp⟩
    · exact ⟨[], by simp⟩
  split
  · exact ⟨[pyStrip (pyDrop l 8)], rfl⟩
  split
  · exact ⟨[], by simp⟩
  · exact ⟨[], by simp⟩

theorem foldl_robotsStep_sitemaps_mono (lines : List String) (st : RState) :
    ∃ t, (lines.foldl robotsStep st).data.sitemaps = st.data.sitemaps ++ t := by
  induction lines generalizing st with
  | nil => exact ⟨[], by simp⟩
  | cons a t ih =>
      obtain ⟨t1, ht1⟩ := robotsStepLine_sitemaps_mono st (pyStrip a)
      obtain ⟨t2, ht2⟩ := ih (robotsStep st a)
      refine ⟨t1 ++ t2, ?_⟩
      rw [List.foldl_cons, ht2]
      show (robotsStepLine st (pyStrip a)).data.sitemaps ++ t2 = _
      rw [ht1, List.append_assoc]

/-- A line the parser processes as a sitemap directive: after stripping it
is nonempty, is not a comment, matches none of the earlier directive
prefixes, and starts (case-insensitively) with the sitemap keyword. -/
def isSitemapDirectiveLine (l : String) : Prop :=
  pyStrip l ≠ "" ∧ pyStartsWith (pyStrip l) "#" = false ∧
  pyStartsWith (pyLower (pyStrip l)) "user-agent:" = false ∧
  pyStartsWith (pyLower (pyStrip l)) "disallow:" = false ∧
  pyStartsWith (pyLower (pyStrip l)) "allow:" = false ∧
  pyStartsWith (pyLower (pyStrip l)) "sitemap:" = true

theorem robotsStep_sitemap_line {st : RState} {l : String}
    (h : isSitemapDirectiveLine l) :
    (robotsStep st l).data.sitemaps =
      st.data.sitemaps ++ [pyStrip (pyDrop (pyStrip l) 8)] := by
  obtain ⟨h1, h2, h3, h4, h5, h6⟩ := h
  unfold robotsStep robotsStepLine
  split
  · rename_i hc
    exact absurd hc h1
  split
  · rename_i hc
    rw [h2] at hc
    exact absurd hc (by simp)
  split
  · rename_i hc
    rw [h3] at hc
    exact absurd hc (by simp)
  split
  · rename_i hc
    rw [h4] at hc
    exact absurd hc (by simp)
  split
  · rename_i hc
    rw [h5] at hc
    exact absurd hc (by simp)
  rfl

/-- C10: a crawler-control text containing a sitemap directive line whose
value is empty after trimming still gets the empty string appended to the
sitemap list (there is no non-emptiness guard, unlike disallow/allow), so
the list is nonempty and the analyzer emits the sitemap-count insight and
not the add-a-sitemap recommendation. -/
theorem claim_C10_empty_sitemap (content : String)
    (h : ∃ l ∈ pySplitNL content,
      isSitemapDirectiveLine l ∧ pyStrip (pyDrop (pyStrip l) 8) = "") :
    ∃ d, parse_robots_txt content = some d ∧ "" ∈ d.sitemaps ∧ d.sitemaps ≠ [] ∧
      ∀ fetch, ∃ recs warns ins,
        analyze_seo fetch (some d) none = Except.ok (recs, warns, ins) ∧
        Msg.sitemapCount d.sitemaps.length ∈ ins ∧ Msg.addSitemapRec ∉ recs := by
  obtain ⟨l, hl, hsl, hval⟩ := h
  have hcne : content ≠ "" := by
    intro hc
    subst hc
    have hle : l = "" := by
      have : pySplitNL "" = [""] := by decide
      rw [this] at hl
      simpa using hl
    subst hle
    exact hsl.1 (by decide)
  obtain ⟨s, t, hst⟩ := List.append_of_mem hl
  have hfold : (pySplitNL content).foldl robotsStep robotsInit =
      t.foldl robotsStep (robotsStep (s.foldl robotsStep robotsInit) l) := by
    rw [hst, List.foldl_append, List.foldl_cons]
  set st1 := s.foldl robotsStep robotsInit with hst1
  have hstep : (robotsStep st1 l).data.sitemaps = st1.data.sitemaps ++ [""] := by
    rw [robotsStep_sitemap_line hsl, hval]
  obtain ⟨t2, ht2⟩ := foldl_robotsStep_sitemaps_mono t (robotsStep st1 l)
  have hmem : "" ∈ ((pySplitNL content).foldl robotsStep robotsInit).data.sitemaps := by
    rw [hfold, ht2, hstep]
    simp
  refine ⟨((pySplitNL content).foldl robotsStep robotsInit).data, ?_, hmem,
    List.ne_nil_of_mem hmem, ?_⟩
  · unfold parse_robots_txt
    rw [if_neg hcne]
  · intro fetch
    set d := ((pySplitNL content).foldl robotsStep robotsInit).data with hd
    have hne : d.sitemaps.isEmpty = false := by
      rw [List.isEmpty_eq_false]
      exact List.ne_nil_of_mem hmem
    refine ⟨(robotsPart d).1, (robotsPart d).2.1, (robotsPart d).2.2, rfl, ?_, ?_⟩
    · unfold robotsPart
      rw [hne]
      simp
    · unfold robotsPart
      rw [hne]
      simp

/-- C10 witness: the text consisting of the single line `Sitemap:` (empty
value) parses to a directive set whose sitemap list holds the empty
string, and the analyzer emits the count insight and no add-a-sitemap
recommendation. -/
theorem claim_C10_witness :
    ∃ d, parse_robots_txt "Sitemap:" = some d ∧ "" ∈ d.sitemaps ∧ d.sitemaps ≠ [] ∧
      ∀ fetch, ∃ recs warns ins,
        analyze_seo fetch (some d) none = Except.ok (recs, warns, ins) ∧
        Msg.sitemapCount d.sitemaps.length ∈ ins ∧ Msg.addSitemapRec ∉ recs :=
  claim_C10_empty_sitemap "Sitemap:"
    ⟨"Sitemap:", by decide, ⟨by decide, by decide, by decide, by decide, by decide, by decide⟩,
      by decide⟩

/-! ### Helper lemmas about the analyzer -/

theorem floatList_ok {l : List String} (h : ∀ s ∈ l, (pyFloat? s).isSome) :
    floatList l = Except.ok (l.filterMap pyFloat?) := by
  induction l with
  | nil => rfl
  | cons a t ih =>
      obtain ⟨q, hq⟩ := Option.isSome_iff_exists.mp (h a (by simp))
      simp only [floatList, hq, ih (fun s hs => h s (by simp [hs])),
        List.filterMap_cons]

theorem filterMap_length_all_some {l : List String}
    (h : ∀ s ∈ l, (pyFloat? s).isSome) :
    (l.filterMap pyFloat?).length = l.length := by
  induction l with
  | nil => rfl
  | cons a t ih =>
      obtain ⟨q, hq⟩ := Option.isSome_iff_exists.mp (h a (by simp))
      simp only [List.filterMap_cons, hq, List.length_cons,
        ih (fun s hs => h s (by simp [hs]))]

theorem parseDates_ne_nil {l : List String} {d0 : PyDate} {ds : List PyDate}
    (h : parseDates l = some (d0 :: ds)) : l.isEmpty = false := by
  cases l with
  | nil => simp [parseDates] at h
  | cons a t => rfl

/-- C2 counterexample: with the directive set and sitemap document held
fixed (a sitemap index with one child), two different fetch environments
make `analyze_seo` produce different outputs, so the function is not pure
in its two data inputs: the index branch performs network fetches through
`get_all_sitemap_urls`. -/
theorem claim_C2_counterexample :
    analyze_seo (fun _ => some (.wellFormed (.mk (qualify "urlset") none
        [.mk (qualify "url") none [], .mk (qualify "url") none []]))) none
      (some (.index ["u"] "Direct")) ≠
    analyze_seo (fun _ => none) none (some (.index ["u"] "Direct")) := by decide

/-- C2 amended: `analyze_seo` is deterministic given its inputs and the
injected fetch capability, and it is independent of the fetcher (performs
no network activity) whenever the sitemap document is absent or a regular
sitemap; only the sitemap-index branch consults the network. -/
theorem claim_C2_amended (f1 f2 : String → Option RawDoc)
    (rd : Option RobotsData) (urls : List UrlEntry) (src : String) :
    analyze_seo f1 rd none = analyze_seo f2 rd none ∧
    analyze_seo f1 rd (some (.regular urls src)) =
      analyze_seo f2 rd (some (.regular urls src)) :=
  ⟨rfl, rfl⟩

/-- C3 counterexample: the well-formed (no ParseError) document
`<urlset><url><loc>http://e/a</loc></url></urlset>` carries no sitemap
namespace, so the strict parse succeeds with zero namespaced `url`
entries; `parse_sitemap` returns absent without ever reaching the
namespace-tolerant parse, refuting the claim that such a document is
recognized via the tolerant path. -/
theorem claim_C3_counterexample :
    parse_sitemap (.wellFormed (.mk "urlset" none
      [.mk "url" none [.mk "loc" (some "http://e/a") []]])) none = none := by decide

/-- C3 amended: the namespace-tolerant parse runs only when the strict
XML parse raises; when `ET.fromstring` succeeds and the tree has zero
namespaced `url` children under the root, `parse_sitemap` returns absent
directly, never attempting the tolerant path. -/
theorem claim_C3_amended (root : ETElem) (ourl : Option String)
    (h : etFindallChild root (qualify "url") = []) :
    parse_sitemap (.wellFormed root) ourl = none := by
  simp [parse_sitemap, h]

/-- C3 witness: a well-formed tree with no namespaced url children parses
to absent. -/
theorem claim_C3_witness :
    parse_sitemap (.wellFormed (.mk "foo" none [])) none = none :=
  claim_C3_amended (.mk "foo" none []) none rfl

/-- C4 counterexample: on bytes that `ET.fromstring` rejects but in which
BeautifulSoup finds a truthy `urlset` with zero `url` elements (for
example the two-root byte string `<urlset>x</urlset><y/>`), the tolerant
path of `parse_sitemap` returns a `RegularSitemap` with an empty entry
list, refuting the claim that an empty regular sitemap is never returned
on the tolerant path. -/
theorem claim_C4_counterexample :
    parse_sitemap (.malformed (some (.cons (.mk "urlset" "x" .nil) .nil))) none =
      some (.regular [] "Direct") := by decide

/-- C4 amended: on the strict path the claim holds: when `ET.fromstring`
succeeds, a returned `RegularSitemap` always has a nonempty entry list
(zero entries fall through to absent); the tolerant path does not carry
this guard. -/
theorem claim_C4_amended (c : RawDoc) (ourl : Option String)
    (es : List UrlEntry) (src : String) (hw : ∃ root, c = .wellFormed root)
    (hp : parse_sitemap c ourl = some (.regular es src)) : es ≠ [] := by
  obtain ⟨root, rfl⟩ := hw
  unfold parse_sitemap at hp
  dsimp only at hp
  split at hp
  · exact absurd hp (by simp)
  · rename_i hcond
    obtain ⟨h1, h2⟩ := SitemapDoc.regular.inj (Option.some.inj hp)
    intro hemp
    apply hcond
    rw [h1, hemp]
    rfl

/-- C4 witness: a strict-path parse that does return a regular sitemap
has a nonempty entry list. -/
theorem claim_C4_witness :
    ([⟨some "http://e/a", none, none, none⟩] : List UrlEntry) ≠ [] :=
  claim_C4_amended
    (.wellFormed (.mk (qualify "urlset") none
      [.mk (qualify "url") none [.mk (qualify "loc") (some "http://e/a") []]]))
    (some "u") [⟨some "http://e/a", none, none, none⟩] "u"
    ⟨_, rfl⟩ (by decide)

/-- C5 counterexample: an entry whose priority is the non-empty,
non-numeric string `abc` passes the truthiness filter and reaches
`float(...)`, which raises `ValueError`; `analyze_seo` propagates the
exception instead of excluding the entry from the mean, refuting the
never-raising part of the claim. -/
theorem claim_C5_counterexample :
    analyze_seo (fun _ => none) none
      (some (.regular [⟨none, none, none, some "abc"⟩] "Direct")) =
      Except.error "ValueError" := by decide

/-- C5 amended: entries with an absent (None or empty-string) priority
are excluded from both numerator and denominator of the mean; provided
every remaining priority string parses as a float, `analyze_seo` succeeds
and, when at least one priority survives the filter, emits the arithmetic
mean over exactly the surviving entries (a surviving non-numeric priority
instead raises `ValueError`). -/
theorem claim_C5_amended (fetch : String → Option RawDoc)
    (urls : List UrlEntry) (src : String)
    (h : ∀ s ∈ truthyPriorities urls, (pyFloat? s).isSome) :
    ∃ ins, analyze_seo fetch none (some (.regular urls src)) =
      Except.ok ([], [], ins) ∧
      ((truthyPriorities urls).isEmpty = false →
        Msg.avgPriority (pyMean ((truthyPriorities urls).filterMap pyFloat?)) ∈ ins) := by
  have hok := floatList_ok h
  unfold analyze_seo regularInsights
  dsimp only
  rw [hok]
  dsimp only
  refine ⟨_, rfl, ?_⟩
  intro hne
  have hpe : ((truthyPriorities urls).filterMap pyFloat?).isEmpty = false := by
    rw [List.isEmpty_eq_false] at hne ⊢
    intro hemp
    apply hne
    have hlen := filterMap_length_all_some h
    rw [hemp] at hlen
    exact List.eq_nil_of_length_eq_zero hlen.symm
  rw [hpe]
  simp only [Bool.false_eq_true, if_false]
  repeat' split
  all_goals simp [List.mem_append]

/-- C5 witness: over the priority strings 0.8, absent, 0.4 the analyzer
succeeds and emits mean 3/5 = 0.6, excluding the absent entry from both
numerator and denominator. -/
theorem claim_C5_witness :
    ∃ ins, analyze_seo (fun _ => none) none
      (some (.regular [⟨none, none, none, some "0.8"⟩, ⟨none, none, none, none⟩,
        ⟨none, none, none, some "0.4"⟩] "Direct")) = Except.ok ([], [], ins) ∧
      ((truthyPriorities [⟨none, none, none, some "0.8"⟩, ⟨none, none, none, none⟩,
        ⟨none, none, none, some "0.4"⟩]).isEmpty = false →
        Msg.avgPriority (pyMean ((truthyPriorities [⟨none, none, none, some "0.8"⟩,
          ⟨none, none, none, none⟩,
          ⟨none, none, none, some "0.4"⟩]).filterMap pyFloat?)) ∈ ins) :=
  claim_C5_amended (fun _ => none)
    [⟨none, none, none, some "0.8"⟩, ⟨none, none, none, none⟩,
      ⟨none, none, none, some "0.4"⟩] "Direct" (by decide)

/-- C6 counterexample: over the lastmod strings 2023-01-10, bad-date,
2023-03-01 the analyzer emits no date-range insight at all (the full
output is just the URL count): the malformed date makes the whole
comprehension raise inside the try block and the except drops the
insight, refuting the claim that the malformed entry is excluded and the
range 2023-01-10 .. 2023-03-01 emitted. -/
theorem claim_C6_counterexample :
    analyze_seo (fun _ => none) none
      (some (.regular [⟨none, some "2023-01-10", none, none⟩,
        ⟨none, some "bad-date", none, none⟩,
        ⟨none, some "2023-03-01", none, none⟩] "Direct")) =
      Except.ok ([], [], [Msg.urlCount 3]) := by decide

/-- C6 amended: the date-range insight is emitted exactly when at least
one lastModified value is present and every present value parses as
YYYY-MM-DD; it then carries the minimum and maximum date in the same
format.  A single unparsable value silently suppresses the whole insight
(the failure is still never fatal). -/
theorem claim_C6_amended (fetch : String → Option RawDoc)
    (urls : List UrlEntry) (src : String) (d0 : PyDate) (ds : List PyDate)
    (hp : ∀ s ∈ truthyPriorities urls, (pyFloat? s).isSome)
    (hd : parseDates (truthyLastmods urls) = some (d0 :: ds)) :
    ∃ ins, analyze_seo fetch none (some (.regular urls src)) =
      Except.ok ([], [], ins) ∧
      Msg.lastmodRange (formatDate (dateListMin d0 ds))
        (formatDate (dateListMax d0 ds)) ∈ ins := by
  have hok := floatList_ok hp
  unfold analyze_seo regularInsights
  dsimp only
  rw [hok]
  dsimp only
  refine ⟨_, rfl, ?_⟩
  rw [parseDates_ne_nil hd]
  simp only [Bool.false_eq_true, if_false]
  rw [hd]
  dsimp only
  repeat' split
  all_goals simp [List.mem_append]

/-- C6 witness: with the two parsable lastmod values 2023-01-10 and
2023-03-01 the analyzer emits the range insight with those endpoints. -/
theorem claim_C6_witness :
    ∃ ins, analyze_seo (fun _ => none) none
      (some (.regular [⟨none, some "2023-01-10", none, none⟩,
        ⟨none, some "2023-03-01", none, none⟩] "Direct")) =
      Except.ok ([], [], ins) ∧
      Msg.lastmodRange (formatDate (dateListMin ⟨2023, 1, 10⟩ [⟨2023, 3, 1⟩]))
        (formatDate (dateListMax ⟨2023, 1, 10⟩ [⟨2023, 3, 1⟩])) ∈ ins :=
  claim_C6_amended (fun _ => none)
    [⟨none, some "2023-01-10", none, none⟩, ⟨none, some "2023-03-01", none, none⟩]
    "Direct" ⟨2023, 1, 10⟩ [⟨2023, 3, 1⟩] (by decide) (by decide)
